import Mathlib

/-!
Verification development for the SnowPulse streaming ingester
(src/streaming/stream_to_snowflake.py).

The script runs three pollers (historical daily bars, periodic previous-close
aggregates, news) that fetch JSON from a rate-limited REST API, wrap results
into envelope rows, and deliver batches through an append-only streaming
channel with caller-assigned offset tokens.

Shallow embedding conventions:
  - Python exceptions raised by a fetch are modelled as `Except Unit _`
    results of the fetch environment; an exception raised by
    `channel.append_rows` is modelled by the environment flag `appendOk`.
    Each `fetch_and_ingest` embedding is a total Lean function, mirroring
    the fact that the Python method catches every exception internally.
  - The shared `shutdown_event` is modelled as a Bool-valued function of the
    loop-iteration index at which the poller polls it.
  - Wall-clock timestamps written into `RECORD_METADATA.ingested_at` are
    threaded in as an opaque string `now`.
  - Offset tokens are decimal strings of the underlying Nat offsets; append
    calls carry the Nat values, and `offsetToken` renders the string actually
    passed to the channel.
-/

namespace SnowPulse

/-- The fixed ticker list (stream_to_snowflake.py line 27). -/
def TICKERS : List String :=
  ["AAPL", "MSFT", "GOOGL", "AMZN", "TSLA", "NVDA", "META"]

/-- Seconds between API calls (stream_to_snowflake.py line 35). -/
def API_CALL_DELAY : Nat := 12

/-- Rendering `str(n)` used for the offset tokens handed to `append_rows`. -/
def offsetToken (n : Nat) : String := Nat.repr n

/-- Source tag written by `AggregatePoller.fetch_and_ingest` (line 204). -/
def aggSource : String := "polygon_rest_aggs"

/-- Source tag written by `HistoricalAggPoller.fetch_and_ingest` (line 138). -/
def histSource : String := "polygon_rest_daily_bars"

/-- Source tag written by `NewsPoller.fetch_and_ingest` (line 274). -/
def newsSource : String := "polygon_rest_news"

/-- The `RECORD_METADATA` dict of an envelope row: `ingested_at` (wall-clock
string), `source` tag, and for the two ticker pollers the `ticker`. -/
structure RecordMetadata where
  ingested_at : String
  source : String
  ticker : Option String
deriving Repr, DecidableEq

/-- One aggregate/daily-bar result after the code patches the ticker into it
(`bar["ticker"] = ticker`, lines 133/199). The rest of the JSON object is an
opaque payload. -/
structure BarContent where
  payload : Nat
  ticker : String
deriving Repr, DecidableEq

/-- An envelope row built by the two ticker pollers (lines 134-141/200-207). -/
structure TickerRow where
  record_content : BarContent
  record_metadata : RecordMetadata
deriving Repr, DecidableEq

/-- A news article from the API: its `id` field (absent = `none`) and an
opaque remaining payload. -/
structure Article where
  id : Option String
  body : Nat
deriving Repr, DecidableEq

/-- An envelope row built by the news poller (lines 270-276). -/
structure NewsRow where
  record_content : Article
  record_metadata : RecordMetadata
deriving Repr, DecidableEq

/-- One invocation of `channel.append_rows` (the batch, the Nat offsets whose
decimal strings are the start/end offset tokens, and whether the call
succeeded — `ok := false` models `append_rows` raising). -/
structure AppendCall (ρ : Type) where
  rows : List ρ
  start_offset : Nat
  end_offset : Nat
  ok : Bool
deriving Repr, DecidableEq

/-- Environment of one `fetch_and_ingest` cycle of a ticker poller:
the wall-clock string, the shutdown flag as observed at each loop index,
the outcome of `api_get` per ticker (`.error` models a raised exception,
`.ok` the `results` list), and whether `append_rows` succeeds. -/
structure TickerEnv where
  now : String
  shutdown : Nat → Bool
  fetch : String → Except Unit (List Nat)
  appendOk : Bool

/-- Envelope construction of the ticker pollers (lines 133-141/199-207). -/
def mkTickerRow (src now t : String) (payload : Nat) : TickerRow :=
  { record_content := { payload := payload, ticker := t },
    record_metadata := { ingested_at := now, source := src, ticker := some t } }

/-- The per-ticker accumulation loop shared by `HistoricalAggPoller` (lines
124-143) and `AggregatePoller` (lines 190-209): check the shutdown event,
fetch, append the envelopes of each result on success, log and continue on a
raised exception. `i` is the loop-iteration index at which the shutdown
event is polled. -/
def collectTickerRows (src : String) (env : TickerEnv) :
    List String → Nat → List TickerRow
  | [], _ => []
  | t :: ts, i =>
    if env.shutdown i then []
    else
      (match env.fetch t with
        | .ok bars => bars.map (mkTickerRow src env.now t)
        | .error _ => []) ++ collectTickerRows src env ts (i + 1)

/-- Mutable state of `AggregatePoller` (lines 182-183). -/
structure AggState where
  offset : Nat
  total_ingested : Nat
deriving Repr, DecidableEq

/-- State after `AggregatePoller.__init__` (lines 182-183). -/
def aggStart : AggState := { offset := 0, total_ingested := 0 }

/-- Method `AggregatePoller.fetch_and_ingest` (lines 186-222): accumulate rows over
the tickers, and if the batch is non-empty advance `offset` (line 213,
before the append), attempt `append_rows`, and on success add to
`total_ingested`. An append failure (`env.appendOk = false`) is caught and
leaves `total_ingested` alone, but `offset` stays advanced. -/
def AggregatePoller.fetch_and_ingest (st : AggState) (env : TickerEnv) :
    AggState × Option (AppendCall TickerRow) :=
  let rows := collectTickerRows aggSource env TICKERS 0
  if rows.isEmpty then (st, none)
  else
    let offset' := st.offset + rows.length
    let call : AppendCall TickerRow :=
      { rows := rows, start_offset := offset' - rows.length,
        end_offset := offset', ok := env.appendOk }
    if env.appendOk then
      ({ offset := offset', total_ingested := st.total_ingested + rows.length },
        some call)
    else
      ({ st with offset := offset' }, some call)

/-- A sequence of `fetch_and_ingest` cycles of one poller (the body of its
`run` loop): thread the state through the cycles and collect the append
calls that were attempted. -/
def stepRun {σ ε ρ : Type} (step : σ → ε → σ × Option (AppendCall ρ)) :
    σ → List ε → σ × List (AppendCall ρ)
  | st, [] => (st, [])
  | st, e :: es =>
    let cur := step st e
    let rest := stepRun step cur.1 es
    (rest.1, (match cur.2 with | some c => [c] | none => []) ++ rest.2)

/-- A sequence of `AggregatePoller.fetch_and_ingest` cycles (the body of
`AggregatePoller.run`, lines 224-228). -/
def aggRun : AggState → List TickerEnv → AggState × List (AppendCall TickerRow) :=
  stepRun AggregatePoller.fetch_and_ingest

/-- Mutable state of `HistoricalAggPoller` (lines 109-111). -/
structure HistState where
  offset : Nat
  total_ingested : Nat
  loaded : Bool
deriving Repr, DecidableEq

/-- State after `HistoricalAggPoller.__init__` (lines 109-111). -/
def histStart : HistState := { offset := 0, total_ingested := 0, loaded := false }

/-- Method `HistoricalAggPoller.fetch_and_ingest` (lines 114-157): return
immediately once `loaded`; otherwise accumulate 30-day daily bars per ticker
and append; `loaded` is set only when `append_rows` succeeded (line 154). -/
def HistoricalAggPoller.fetch_and_ingest (st : HistState) (env : TickerEnv) :
    HistState × Option (AppendCall TickerRow) :=
  if st.loaded then (st, none)
  else
    let rows := collectTickerRows histSource env TICKERS 0
    if rows.isEmpty then (st, none)
    else
      let offset' := st.offset + rows.length
      let call : AppendCall TickerRow :=
        { rows := rows, start_offset := offset' - rows.length,
          end_offset := offset', ok := env.appendOk }
      if env.appendOk then
        ({ offset := offset', total_ingested := st.total_ingested + rows.length,
           loaded := true }, some call)
      else
        ({ st with offset := offset' }, some call)

/-- A sequence of `HistoricalAggPoller.fetch_and_ingest` cycles (what
`HistoricalAggPoller.run` would perform if its wait loop re-invoked the
method; after a successful load the `loaded` flag makes every further cycle
a no-op). -/
def histRun : HistState → List TickerEnv → HistState × List (AppendCall TickerRow) :=
  stepRun HistoricalAggPoller.fetch_and_ingest

/-- Mutable state of `NewsPoller` (lines 246-248). The CPython set
`self.seen_ids` is modelled as the list of its member ids in insertion
order; membership tests are list membership, and `add` appends. -/
structure NewsState where
  offset : Nat
  total_ingested : Nat
  seen_ids : List String
deriving Repr, DecidableEq

/-- State after `NewsPoller.__init__` (lines 246-248). -/
def newsStart : NewsState := { offset := 0, total_ingested := 0, seen_ids := [] }

/-- Environment of one `NewsPoller.fetch_and_ingest` cycle: the wall-clock
string, the outcome of the single combined `api_get` (`.error` models a
raised exception), the enumeration order that `list(self.seen_ids)` yields
(CPython specifies no order for set iteration, so it is an oracle: any
enumeration of the set's elements), and whether `append_rows` succeeds. -/
structure NewsEnv where
  now : String
  fetchResult : Except Unit (List Article)
  enumOrder : List String → List String
  appendOk : Bool

/-- Key extraction `article.get("id")` followed by the truthiness test `if article_id`
(line 267-268): the key under which an article is deduplicated, `none` when
the `id` field is absent or falsy (the empty string). -/
def articleKey (a : Article) : Option String :=
  match a.id with
  | none => none
  | some s => if s = "" then none else some s

/-- Envelope construction of the news poller (lines 270-276). -/
def mkNewsRow (now : String) (a : Article) : NewsRow :=
  { record_content := a,
    record_metadata := { ingested_at := now, source := newsSource, ticker := none } }

/-- The per-article loop of `NewsPoller.fetch_and_ingest` (lines 266-276):
skip an article whose key is falsy or already in `seen_ids`, otherwise add
the key to `seen_ids` and append the envelope to the batch. Returns the
grown seen list and the batch. -/
def newsLoop (now : String) : List Article → List String → List String × List NewsRow
  | [], seen => (seen, [])
  | a :: rest, seen =>
    match articleKey a with
    | none => newsLoop now rest seen
    | some k =>
      if k ∈ seen then newsLoop now rest seen
      else
        let step := newsLoop now rest (seen ++ [k])
        (step.1, mkNewsRow now a :: step.2)

/-- The trim of `seen_ids` (lines 278-280):
`if len(self.seen_ids) > 5000: self.seen_ids = set(list(self.seen_ids)[-2500:])`.
`enum` is the enumeration order `list(...)` produces. -/
def trimSeen (enum : List String → List String) (seen : List String) : List String :=
  if seen.length > 5000 then
    let l := enum seen
    l.drop (l.length - 2500)
  else seen

/-- Method `NewsPoller.fetch_and_ingest` (lines 251-296): one combined fetch; on a
raised fetch exception log and fall through with an empty batch (the trim is
inside the `try`, so it is skipped too); otherwise dedup-filter the articles,
trim `seen_ids`, and append the batch if non-empty, with `offset` advanced
before the append (line 287) and `total_ingested` only on success. -/
def NewsPoller.fetch_and_ingest (st : NewsState) (env : NewsEnv) :
    NewsState × Option (AppendCall NewsRow) :=
  match env.fetchResult with
  | .error _ => (st, none)
  | .ok arts =>
    let step := newsLoop env.now arts st.seen_ids
    let seen2 := trimSeen env.enumOrder step.1
    let rows := step.2
    if rows.isEmpty then ({ st with seen_ids := seen2 }, none)
    else
      let offset' := st.offset + rows.length
      let call : AppendCall NewsRow :=
        { rows := rows, start_offset := offset' - rows.length,
          end_offset := offset', ok := env.appendOk }
      if env.appendOk then
        ({ offset := offset', total_ingested := st.total_ingested + rows.length,
           seen_ids := seen2 }, some call)
      else
        ({ st with offset := offset', seen_ids := seen2 }, some call)

/-- A sequence of `NewsPoller.fetch_and_ingest` cycles (the body of
`NewsPoller.run`, lines 298-302); returns the final state and, per cycle,
the batch handed to `append_rows` (`[]` when no append was attempted). -/
def newsRun : NewsState → List NewsEnv → NewsState × List (List NewsRow)
  | st, [] => (st, [])
  | st, e :: es =>
    let step := NewsPoller.fetch_and_ingest st e
    let rest := newsRun step.1 es
    (rest.1, (match step.2 with | some c => c.rows | none => []) :: rest.2)

/-- The dedup key of a delivered news row. -/
def rowKey (r : NewsRow) : Option String := articleKey r.record_content

/-- The dedup keys of a delivered batch, in batch order. -/
def batchKeys (rows : List NewsRow) : List String := rows.filterMap rowKey

/-- Does this cycle leave the seen set at ≤ 5000 entries after the
per-article loop, so that the trim of lines 278-280 does not fire? -/
def noTrimCycle (st : NewsState) (env : NewsEnv) : Bool :=
  match env.fetchResult with
  | .error _ => true
  | .ok arts => decide ((newsLoop env.now arts st.seen_ids).1.length ≤ 5000)

/-- No cycle of the run fires the seen-set trim. -/
def noTrimRun : NewsState → List NewsEnv → Bool
  | _, [] => true
  | st, e :: es =>
    noTrimCycle st e && noTrimRun (NewsPoller.fetch_and_ingest st e).1 es

/-- One attempted call through the rate-limited `api_get` (lines 84-95):
the wall-clock time at which the caller acquires `api_lock`, and how long
the `requests.get` takes. -/
structure ApiCall where
  arrival : Nat
  duration : Nat
deriving Repr, DecidableEq

/-- The time at which `requests.get` starts inside `api_get` (lines 88-92):
`elapsed = now - last_api_call`; when `elapsed < API_CALL_DELAY` the caller
sleeps the remainder before issuing the request. -/
def apiCallStart (last arrival : Nat) : Nat :=
  if arrival - last < API_CALL_DELAY then
    arrival + (API_CALL_DELAY - (arrival - last))
  else arrival

/-- A serialized sequence of `api_get` calls (the order in which the callers
hold `api_lock`), starting from a given `last_api_call` value; returns per
call the pair (start of `requests.get`, new `last_api_call` recorded at line
93, i.e. the completion time `start + duration`). -/
def apiRun : Nat → List ApiCall → List (Nat × Nat)
  | _, [] => []
  | last, c :: cs =>
    let s := apiCallStart last c.arrival
    (s, s + c.duration) :: apiRun (s + c.duration) cs

/-- Mutual exclusion of `api_lock` plus a monotone wall clock: each caller
acquires the lock no earlier than the previous holder recorded
`last_api_call` (which happens before the lock is released). -/
def serializedFrom : Nat → List ApiCall → Bool
  | _, [] => true
  | last, c :: cs =>
    decide (last ≤ c.arrival) &&
      serializedFrom (apiCallStart last c.arrival + c.duration) cs

instance {ρ : Type} : Inhabited (AppendCall ρ) :=
  ⟨{ rows := [], start_offset := 0, end_offset := 0, ok := false }⟩

instance : Inhabited NewsEnv :=
  ⟨{ now := "", fetchResult := .error (), enumOrder := id, appendOk := true }⟩

/-- The batch a news cycle hands to `append_rows` (`[]` when no append was
attempted). -/
def cycleRows (st : NewsState) (env : NewsEnv) : List NewsRow :=
  match (NewsPoller.fetch_and_ingest st env).2 with
  | some c => c.rows
  | none => []

/-- Modelled from the spec: the batch the spec says a ticker-poller cycle
must deliver — exactly the successful tickers' records, in the order the
tickers were fetched, each wrapped in its envelope. -/
def specSuccessRows (env : TickerEnv) : List TickerRow :=
  (TICKERS.map fun t =>
    match env.fetch t with
    | .ok bars => bars.map (mkTickerRow aggSource env.now t)
    | .error _ => []).flatten

/-- The spec's offset-window invariant over a channel's attempted append
calls, for a poller whose offset counter began at `startOff`:
every window satisfies `end - start == len(batch)`, the first window starts
at `startOff`, consecutive windows chain (`end` of a call equals `start` of
the next) and never decrease, and the end offset of the (i+1)-st call is
`startOff` plus the sum of the batch sizes of calls 1..i+1. -/
def offsetWindowSpec {ρ : Type} (startOff : Nat) (calls : List (AppendCall ρ)) : Prop :=
  (∀ c ∈ calls, c.start_offset + c.rows.length = c.end_offset) ∧
  (calls ≠ [] → (calls.headD default).start_offset = startOff) ∧
  List.Chain' (fun a b =>
    a.end_offset = b.start_offset ∧
    a.start_offset ≤ b.start_offset ∧ a.end_offset ≤ b.end_offset) calls ∧
  (∀ i, i < calls.length →
    (calls.getD i default).end_offset =
      startOff + (((calls.take (i + 1)).map fun c => c.rows.length).sum))

/-! Concrete cycle environments used to instantiate the theorems below. -/

/-- A fetch in which only AAPL succeeds, with two results. -/
def exFetchTwo : String → Except Unit (List Nat) :=
  fun t => if t = "AAPL" then .ok [1, 2] else .error ()

/-- A fetch in which only AAPL succeeds, with three results. -/
def exFetchThree : String → Except Unit (List Nat) :=
  fun t => if t = "AAPL" then .ok [1, 2, 3] else .error ()

/-- A cycle delivering two rows whose append fails. -/
def exC1EnvFail : TickerEnv :=
  { now := "c1", shutdown := fun _ => false, fetch := exFetchTwo, appendOk := false }

/-- A cycle delivering three rows whose append succeeds. -/
def exC1EnvOk : TickerEnv :=
  { now := "c2", shutdown := fun _ => false, fetch := exFetchThree, appendOk := true }

/-- A cycle in which one ticker (MSFT) fails and the others yield one bar. -/
def exC2Env : TickerEnv :=
  { now := "w2", shutdown := fun _ => false,
    fetch := fun t => if t = "MSFT" then .error () else .ok [3], appendOk := true }

/-- First historical cycle: every ticker yields one bar, append succeeds. -/
def exC4Env1 : TickerEnv :=
  { now := "h1", shutdown := fun _ => false, fetch := fun _ => .ok [1], appendOk := true }

/-- Second historical cycle environment (would deliver fresh data if run). -/
def exC4Env2 : TickerEnv :=
  { now := "h2", shutdown := fun _ => false, fetch := fun _ => .ok [2], appendOk := true }

/-- The end-to-end scenario of the spec: seven tickers, TSLA's fetch raises,
every other ticker yields exactly one result, append succeeds. -/
def exC6Env : TickerEnv :=
  { now := "e2e", shutdown := fun _ => false,
    fetch := fun t => if t = "TSLA" then .error () else .ok [7], appendOk := true }

/-- A cycle whose shutdown event becomes set at loop index 2. -/
def exC8Env : TickerEnv :=
  { now := "s", shutdown := fun i => decide (2 ≤ i),
    fetch := fun _ => .ok [9], appendOk := true }

/-- News articles with distinct truthy ids. -/
def exArtA1 : Article := { id := some "a1", body := 1 }

/-- Second news article. -/
def exArtA2 : Article := { id := some "a2", body := 2 }

/-- Third news article. -/
def exArtA3 : Article := { id := some "a3", body := 3 }

/-- First news cycle of the spec's dedup scenario: response `[a1, a2]`. -/
def exC3Env1 : NewsEnv :=
  { now := "n1", fetchResult := .ok [exArtA1, exArtA2], enumOrder := id, appendOk := true }

/-- Second news cycle of the spec's dedup scenario: response `[a1, a2, a1, a3]`. -/
def exC3Env2 : NewsEnv :=
  { now := "n2", fetchResult := .ok [exArtA1, exArtA2, exArtA1, exArtA3],
    enumOrder := id, appendOk := true }

/-- News cycle delivering `a1` whose append fails. -/
def exC9Env1 : NewsEnv :=
  { now := "n1", fetchResult := .ok [exArtA1], enumOrder := id, appendOk := false }

/-- News cycle whose response repeats `a1` and adds `a3`. -/
def exC9Env2 : NewsEnv :=
  { now := "n2", fetchResult := .ok [exArtA1, exArtA3], enumOrder := id, appendOk := true }

/-- An article whose id field is the empty string (falsy in Python). -/
def exArtEmptyId : Article := { id := some "", body := 99 }

/-- An article with a truthy id. -/
def exArtX : Article := { id := some "x", body := 7 }

/-- Generator of n distinct article ids ("s0", "s1", ...); defined by
head-producing recursion. -/
def mkIds : Nat → List String
  | 0 => []
  | n + 1 => ("s" ++ Nat.repr n) :: mkIds n

/-- A seen set already holding 5000 ids. -/
def exSeen5000 : List String := mkIds 5000

/-- The most recently published article of the trim scenario. -/
def exFreshArticle : Article := { id := some "fresh", body := 0 }

/-- News poller state whose seen set holds 5000 ids. -/
def exC5State : NewsState :=
  { offset := 0, total_ingested := 0, seen_ids := exSeen5000 }

/-- Trim-scenario cycle 1: one fresh article arrives; the CPython set happens
to enumerate in the reverse of insertion order (any enumeration order is a
legitimate behaviour of `list(set)`). -/
def exC5Env1 : NewsEnv :=
  { now := "t1", fetchResult := .ok [exFreshArticle],
    enumOrder := List.reverse, appendOk := true }

/-- Trim-scenario cycle 2: the same latest article is in the response again. -/
def exC5Env2 : NewsEnv :=
  { now := "t2", fetchResult := .ok [exFreshArticle], enumOrder := id, appendOk := true }

/-- A seen set already holding 5001 ids. -/
def exSeen5001 : List String := mkIds 5001

/-- News poller state whose seen set holds 5001 ids. -/
def exC5WitState : NewsState :=
  { offset := 0, total_ingested := 0, seen_ids := exSeen5001 }

/-- A news cycle with an empty response, during which the oversized seen set
still gets trimmed. -/
def exC5WitEnv : NewsEnv :=
  { now := "t", fetchResult := .ok [], enumOrder := id, appendOk := true }

/-! Offset bookkeeping of the append calls (claim C1 and friends). -/

/-- When a cycle of the aggregate poller attempts an append, its window
starts at the incoming offset, ends at incoming offset plus batch size, and
the poller's offset advances to the window end whether or not the append
succeeded (the `self.offset += len(rows)` of line 213 happens before the
`append_rows` of line 214 and is not rolled back on failure). -/
theorem agg_fai_some (st : AggState) (env : TickerEnv) (c : AppendCall TickerRow)
    (h : (AggregatePoller.fetch_and_ingest st env).2 = some c) :
    c.start_offset = st.offset ∧ c.end_offset = st.offset + c.rows.length ∧
    (AggregatePoller.fetch_and_ingest st env).1.offset = st.offset + c.rows.length := by
  unfold AggregatePoller.fetch_and_ingest at h ⊢
  by_cases he : (collectTickerRows aggSource env TICKERS 0).isEmpty
  · simp [he] at h
  · by_cases ha : env.appendOk
    · simp [he, ha] at h ⊢
      subst h
      simp [Nat.add_sub_cancel]
    · simp [he, ha] at h ⊢
      subst h
      simp [Nat.add_sub_cancel]

/-- A cycle of the aggregate poller that attempts no append leaves the state
untouched. -/
theorem agg_fai_none (st : AggState) (env : TickerEnv)
    (h : (AggregatePoller.fetch_and_ingest st env).2 = none) :
    (AggregatePoller.fetch_and_ingest st env).1 = st := by
  unfold AggregatePoller.fetch_and_ingest at h ⊢
  by_cases he : (collectTickerRows aggSource env TICKERS 0).isEmpty
  · simp [he]
  · by_cases ha : env.appendOk <;> simp [he, ha] at h

/-- Window/offset facts of one historical cycle that attempts an append
(lines 145-152 mirror lines 211-218). -/
theorem hist_fai_some (st : HistState) (env : TickerEnv) (c : AppendCall TickerRow)
    (h : (HistoricalAggPoller.fetch_and_ingest st env).2 = some c) :
    c.start_offset = st.offset ∧ c.end_offset = st.offset + c.rows.length ∧
    (HistoricalAggPoller.fetch_and_ingest st env).1.offset = st.offset + c.rows.length := by
  unfold HistoricalAggPoller.fetch_and_ingest at h ⊢
  by_cases hl : st.loaded
  · simp [hl] at h
  · by_cases he : (collectTickerRows histSource env TICKERS 0).isEmpty
    · simp [hl, he] at h
    · by_cases ha : env.appendOk
      · simp [hl, he, ha] at h ⊢
        subst h
        simp [Nat.add_sub_cancel]
      · simp [hl, he, ha] at h ⊢
        subst h
        simp [Nat.add_sub_cancel]

/-- A historical cycle that attempts no append leaves the state untouched. -/
theorem hist_fai_none (st : HistState) (env : TickerEnv)
    (h : (HistoricalAggPoller.fetch_and_ingest st env).2 = none) :
    (HistoricalAggPoller.fetch_and_ingest st env).1 = st := by
  unfold HistoricalAggPoller.fetch_and_ingest at h ⊢
  by_cases hl : st.loaded
  · simp [hl]
  · by_cases he : (collectTickerRows histSource env TICKERS 0).isEmpty
    · simp [hl, he]
    · by_cases ha : env.appendOk <;> simp [hl, he, ha] at h

/-- Any poller run whose cycles advance the offset by the attempted batch
size satisfies the offset-window bookkeeping over its attempted appends. -/
theorem stepRun_offsetWindow {σ ε ρ : Type}
    (step : σ → ε → σ × Option (AppendCall ρ)) (off : σ → Nat)
    (hsome : ∀ s e c, (step s e).2 = some c →
      c.start_offset = off s ∧ c.end_offset = off s + c.rows.length ∧
      off (step s e).1 = off s + c.rows.length)
    (hnone : ∀ s e, (step s e).2 = none → (step s e).1 = s) :
    ∀ (envs : List ε) (s : σ),
      off (stepRun step s envs).1 =
        off s + (((stepRun step s envs).2).map fun c => c.rows.length).sum ∧
      offsetWindowSpec (off s) (stepRun step s envs).2 := by
  intro envs
  induction envs with
  | nil =>
    intro s
    refine ⟨by simp [stepRun], ?_, ?_, ?_, ?_⟩ <;> simp [stepRun, offsetWindowSpec]
  | cons e es ih =>
    intro s
    cases hc : (step s e).2 with
    | none =>
      have hst : (step s e).1 = s := hnone s e hc
      have hunf : stepRun step s (e :: es) = stepRun step (step s e).1 es := by
        simp [stepRun, hc]
      rw [hunf, hst]
      exact ih s
    | some c =>
      obtain ⟨hcs, hce, hoff⟩ := hsome s e c hc
      have hunf : stepRun step s (e :: es) =
          ((stepRun step (step s e).1 es).1, c :: (stepRun step (step s e).1 es).2) := by
        simp [stepRun, hc]
      obtain ⟨ihA, ih1, ih2, ih3, ih4⟩ := ih (step s e).1
      rw [hunf]
      refine ⟨?_, ?_, ?_, ?_, ?_⟩
      · simp only [List.map_cons, List.sum_cons, ihA, hoff]
        omega
      · intro x hx
        rcases List.mem_cons.mp hx with hx | hx
        · subst hx
          omega
        · exact ih1 x hx
      · intro _
        simp only [List.headD_cons]
        exact hcs
      · rw [List.chain'_cons']
        refine ⟨?_, ih3⟩
        intro b hb
        cases hrest : (stepRun step (step s e).1 es).2 with
        | nil => rw [hrest] at hb; simp at hb
        | cons b' l' =>
          rw [hrest] at hb
          simp only [List.head?_cons, Option.mem_def, Option.some.injEq] at hb
          subst hb
          have hb'start : b'.start_offset = off (step s e).1 := by
            have := ih2 (by rw [hrest]; simp)
            rw [hrest] at this
            simpa using this
          have hb'win : b'.start_offset + b'.rows.length = b'.end_offset :=
            ih1 b' (by rw [hrest]; exact List.mem_cons_self b' l')
          refine ⟨?_, ?_, ?_⟩ <;> omega
      · intro i hi
        cases i with
        | zero =>
          simp only [List.getD_cons_zero, List.take_succ_cons, List.take_zero,
            List.map_cons, List.map_nil, List.sum_cons, List.sum_nil]
          omega
        | succ i =>
          have hi' : i < (stepRun step (step s e).1 es).2.length := by
            simp at hi
            omega
          have := ih4 i hi'
          simp only [List.getD_cons_succ, List.take_succ_cons, List.map_cons,
            List.sum_cons]
          omega

/-- C1, amended. For the periodic-aggregate poller and the historical
poller, over the sequence of all *attempted* append calls of a run from the
freshly initialized state: every call's window satisfies
`end - start == len(batch)`, the first window starts at offset 0,
consecutive attempted calls chain (`end` of call N equals `start` of call
N+1) and the windows never decrease, and the end offset of attempted call K
equals the sum of the batch sizes of attempted calls 1..K. In a run in
which no append call fails the attempted calls are exactly the successful
ones, giving the spec's original invariant; when a failed append call
delivers a non-empty batch, the offset still advances past it, so the sum
over successful calls alone does not hold (see the counterexample). -/
theorem C1_offset_window (envs hist_envs : List TickerEnv) :
    offsetWindowSpec 0 (aggRun aggStart envs).2 ∧
    offsetWindowSpec 0 (histRun histStart hist_envs).2 := by
  constructor
  · exact (stepRun_offsetWindow AggregatePoller.fetch_and_ingest
      (fun s => s.offset) agg_fai_some agg_fai_none envs aggStart).2
  · exact (stepRun_offsetWindow HistoricalAggPoller.fetch_and_ingest
      (fun s => s.offset) hist_fai_some hist_fai_none hist_envs histStart).2

/-- C1 counterexample: a run of the aggregate poller in which the first
cycle's append fails with a 2-row batch and the second cycle's append
succeeds with a 3-row batch. There is exactly one successful append call
(K = 1, b_1 = 3), but its end offset is 5, not sum(b_1) = 3: the claim's
sum property over successful calls fails in runs with failed appends. -/
theorem C1_counterexample :
    (((aggRun aggStart [exC1EnvFail, exC1EnvOk]).2.filter fun c => c.ok).map
        fun c => c.rows.length) = [3] ∧
    (((aggRun aggStart [exC1EnvFail, exC1EnvOk]).2.filter fun c => c.ok).map
        fun c => c.end_offset) = [5] ∧
    (((aggRun aggStart [exC1EnvFail, exC1EnvOk]).2.filter fun c => c.ok).map
        fun c => decide (c.end_offset = c.rows.length)) = [false] := by
  decide

/-- Witness for C1: in an all-successful two-cycle run with batch sizes 3
and 3, the end offset of call 2 equals the sum of the first two batch
sizes. -/
theorem C1_offset_window_witness :
    ((aggRun aggStart [exC1EnvOk, exC1EnvOk]).2.getD 1 default).end_offset =
      0 + ((((aggRun aggStart [exC1EnvOk, exC1EnvOk]).2.take 2).map
        fun c => c.rows.length).sum) :=
  (C1_offset_window [exC1EnvOk, exC1EnvOk] []).1.2.2.2 1 (by decide)

/-! Per-ticker partial-failure tolerance (claims C2, C6, C8). -/

/-- With the shutdown event never set, the accumulation loop yields, ticker
by ticker in order, the envelopes of the successful fetches and nothing for
the failed ones. -/
theorem collect_no_shutdown (src : String) (env : TickerEnv)
    (hs : ∀ j, env.shutdown j = false) :
    ∀ (ts : List String) (i : Nat),
    collectTickerRows src env ts i =
      (ts.map fun t =>
        match env.fetch t with
        | .ok bars => bars.map (mkTickerRow src env.now t)
        | .error _ => []).flatten := by
  intro ts
  induction ts with
  | nil => intro i; simp [collectTickerRows]
  | cons t ts ih =>
    intro i
    unfold collectTickerRows
    rw [hs i]
    simp only [Bool.false_eq_true, if_false, List.map_cons, List.flatten_cons]
    rw [ih (i + 1)]

/-- C2: in a cycle of the periodic-aggregate poller with the shutdown event
unset, the batch handed to `append_rows` is exactly the successful tickers'
records in the order the tickers were fetched (failed tickers are skipped,
never aborting the cycle), and the append is attempted iff that batch is
non-empty. The embedding of `fetch_and_ingest` is a total function whose
environment carries every fetch/append failure as a value, mirroring that
the method catches every exception and never raises past its boundary. -/
theorem C2_batch_exactly_successes (st : AggState) (env : TickerEnv)
    (hs : ∀ j, env.shutdown j = false) :
    (AggregatePoller.fetch_and_ingest st env).2 =
      if (specSuccessRows env).isEmpty then none
      else some { rows := specSuccessRows env,
                  start_offset := st.offset,
                  end_offset := st.offset + (specSuccessRows env).length,
                  ok := env.appendOk } := by
  unfold AggregatePoller.fetch_and_ingest
  rw [collect_no_shutdown aggSource env hs TICKERS 0]
  simp only [specSuccessRows]
  by_cases he : ((TICKERS.map fun t =>
      match env.fetch t with
      | .ok bars => bars.map (mkTickerRow aggSource env.now t)
      | .error _ => []).flatten).isEmpty
  · simp [he]
  · by_cases ha : env.appendOk <;> simp [he, ha, Nat.add_sub_cancel]

/-- Witness for C2: the one-failed-ticker cycle delivers exactly the other
six tickers' rows. -/
theorem C2_batch_exactly_successes_witness :
    (AggregatePoller.fetch_and_ingest aggStart exC2Env).2 =
      if (specSuccessRows exC2Env).isEmpty then none
      else some { rows := specSuccessRows exC2Env,
                  start_offset := aggStart.offset,
                  end_offset := aggStart.offset + (specSuccessRows exC2Env).length,
                  ok := exC2Env.appendOk } :=
  C2_batch_exactly_successes aggStart exC2Env (fun j => rfl)

/-- C6 counterexample: in the spec's end-to-end scenario (seven tickers, one
failing, one result each) every envelope of the delivered batch carries the
source tag "polygon_rest_aggs" — not "periodic_agg" as the claim states. -/
theorem C6_counterexample :
    ((AggregatePoller.fetch_and_ingest aggStart exC6Env).2.map fun c =>
        c.rows.map fun r => r.record_metadata.source) =
      some (List.replicate 6 "polygon_rest_aggs") ∧
    (("polygon_rest_aggs" : String) == "periodic_agg") = false := by
  decide

/-- C6, amended. Seven tickers with exactly one failing fetch and one result
per successful fetch: the batch holds 6 envelopes, each carrying its ticker
in both content and metadata and the source tag `aggSource`
("polygon_rest_aggs"), and the first cycle's append call is made with offset
window (0, 6), whose offset tokens are the strings "0" and "6". -/
theorem C6_scenario :
    ((AggregatePoller.fetch_and_ingest aggStart exC6Env).2.map fun c =>
        (c.rows.map fun r =>
          (r.record_content.ticker, r.record_metadata.ticker, r.record_metadata.source),
         c.start_offset, c.end_offset, c.ok)) =
      some ([("AAPL", some "AAPL", aggSource), ("MSFT", some "MSFT", aggSource),
             ("GOOGL", some "GOOGL", aggSource), ("AMZN", some "AMZN", aggSource),
             ("NVDA", some "NVDA", aggSource), ("META", some "META", aggSource)],
            0, 6, true) ∧
    offsetToken 0 = "0" ∧ offsetToken 6 = "6" := by
  decide

/-- With the shutdown event becoming set at loop index `m`, the accumulation
loop behaves exactly as it does on the first `m` tickers with no shutdown:
rows accumulated before the signal are kept, later tickers are not fetched. -/
theorem collect_cutoff (src : String) (env : TickerEnv) (m : Nat)
    (hs : ∀ j, env.shutdown j = decide (m ≤ j)) :
    ∀ (ts : List String) (i : Nat),
    collectTickerRows src env ts i = collectTickerRows src env (ts.take (m - i)) i := by
  intro ts
  induction ts with
  | nil => intro i; simp [collectTickerRows]
  | cons t ts ih =>
    intro i
    by_cases him : m ≤ i
    · have h0 : m - i = 0 := by omega
      rw [h0, List.take_zero]
      unfold collectTickerRows
      rw [hs i]
      simp [him]
    · have h1 : m - i = (m - (i + 1)) + 1 := by omega
      rw [h1, List.take_succ_cons]
      unfold collectTickerRows
      rw [hs i]
      have hd : decide (m ≤ i) = false := by simp [him]
      rw [hd]
      simp only [Bool.false_eq_true, if_false]
      rw [ih (i + 1)]

/-- C8: if the shutdown event becomes set at loop index `m` (mid-loop), the
cycle stops fetching further tickers, but the rows accumulated from the
first `m` tickers are not discarded: when non-empty, exactly that batch is
passed to `append_rows` before the cycle ends. -/
theorem C8_shutdown_keeps_batch (st : AggState) (env : TickerEnv) (m : Nat)
    (hs : ∀ j, env.shutdown j = decide (m ≤ j))
    (hne : collectTickerRows aggSource env (TICKERS.take m) 0 ≠ []) :
    (AggregatePoller.fetch_and_ingest st env).2 =
      some { rows := collectTickerRows aggSource env (TICKERS.take m) 0,
             start_offset := st.offset,
             end_offset :=
               st.offset + (collectTickerRows aggSource env (TICKERS.take m) 0).length,
             ok := env.appendOk } := by
  have hcut := collect_cutoff aggSource env m hs TICKERS 0
  rw [Nat.sub_zero] at hcut
  unfold AggregatePoller.fetch_and_ingest
  rw [hcut]
  have he : (collectTickerRows aggSource env (TICKERS.take m) 0).isEmpty = false := by
    cases hx : collectTickerRows aggSource env (TICKERS.take m) 0 with
    | nil => exact absurd hx hne
    | cons a l => simp
  by_cases ha : env.appendOk <;> simp [he, ha, Nat.add_sub_cancel]

/-- Witness for C8: shutdown set from loop index 2 onwards; the two rows
already accumulated (AAPL, MSFT) are still appended. -/
theorem C8_shutdown_keeps_batch_witness :
    (AggregatePoller.fetch_and_ingest aggStart exC8Env).2 =
      some { rows := collectTickerRows aggSource exC8Env (TICKERS.take 2) 0,
             start_offset := aggStart.offset,
             end_offset :=
               aggStart.offset + (collectTickerRows aggSource exC8Env (TICKERS.take 2) 0).length,
             ok := exC8Env.appendOk } :=
  C8_shutdown_keeps_batch aggStart exC8Env 2 (fun j => rfl) (by decide)

/-- Once `loaded` is set, a historical cycle returns immediately: no fetch,
no append, state untouched (lines 116-117). -/
theorem hist_fai_loaded (st : HistState) (env : TickerEnv) (h : st.loaded = true) :
    HistoricalAggPoller.fetch_and_ingest st env = (st, none) := by
  unfold HistoricalAggPoller.fetch_and_ingest
  simp [h]

/-- C4: after a first invocation of the historical poller's cycle logic in
which an append was attempted and succeeded, the `loaded` flag is set, and a
second invocation — under any environment — performs no append and returns
the state unchanged: two invocations make exactly one append call. -/
theorem C4_historical_idempotent (st : HistState) (e1 e2 : TickerEnv)
    (hattempt : (HistoricalAggPoller.fetch_and_ingest st e1).2 ≠ none)
    (hok : e1.appendOk = true) :
    (HistoricalAggPoller.fetch_and_ingest st e1).1.loaded = true ∧
    HistoricalAggPoller.fetch_and_ingest
        (HistoricalAggPoller.fetch_and_ingest st e1).1 e2 =
      ((HistoricalAggPoller.fetch_and_ingest st e1).1, none) := by
  have hload : (HistoricalAggPoller.fetch_and_ingest st e1).1.loaded = true := by
    unfold HistoricalAggPoller.fetch_and_ingest at hattempt ⊢
    by_cases hl : st.loaded
    · simp [hl] at hattempt
    · by_cases he : (collectTickerRows histSource e1 TICKERS 0).isEmpty
      · simp [hl, he] at hattempt
      · simp [hl, he, hok]
  exact ⟨hload, hist_fai_loaded _ e2 hload⟩

/-- Witness for C4: a concrete successful first load followed by a second
invocation that is a no-op. -/
theorem C4_historical_idempotent_witness :
    (HistoricalAggPoller.fetch_and_ingest histStart exC4Env1).1.loaded = true ∧
    HistoricalAggPoller.fetch_and_ingest
        (HistoricalAggPoller.fetch_and_ingest histStart exC4Env1).1 exC4Env2 =
      ((HistoricalAggPoller.fetch_and_ingest histStart exC4Env1).1, none) :=
  C4_historical_idempotent histStart exC4Env1 exC4Env2 (by decide) rfl

/-! News deduplication (claims C3, C5, C9, C10). -/

/-- Invariants of the per-article loop: the seen set grows by exactly the
keys of the delivered batch in order, the delivered keys were not previously
seen and are pairwise distinct, and every delivered row has a truthy key. -/
theorem newsLoop_spec (now : String) :
    ∀ (arts : List Article) (seen : List String),
    (newsLoop now arts seen).1 = seen ++ batchKeys (newsLoop now arts seen).2 ∧
    (∀ k ∈ batchKeys (newsLoop now arts seen).2, k ∉ seen) ∧
    (batchKeys (newsLoop now arts seen).2).Nodup ∧
    (∀ r ∈ (newsLoop now arts seen).2, (rowKey r).isSome) := by
  intro arts
  induction arts with
  | nil => intro seen; simp [newsLoop, batchKeys]
  | cons a rest ih =>
    intro seen
    cases hk : articleKey a with
    | none =>
      have hunf : newsLoop now (a :: rest) seen = newsLoop now rest seen := by
        rw [newsLoop.eq_2, hk]
      rw [hunf]
      exact ih seen
    | some k =>
      by_cases hmem : k ∈ seen
      · have hunf : newsLoop now (a :: rest) seen = newsLoop now rest seen := by
          rw [newsLoop.eq_2, hk]
          simp [hmem]
        rw [hunf]
        exact ih seen
      · have hunf : newsLoop now (a :: rest) seen =
            ((newsLoop now rest (seen ++ [k])).1,
              mkNewsRow now a :: (newsLoop now rest (seen ++ [k])).2) := by
          rw [newsLoop.eq_2, hk]
          simp [hmem]
        obtain ⟨ih1, ih2, ih3, ih4⟩ := ih (seen ++ [k])
        rw [hunf]
        have hbk : batchKeys (mkNewsRow now a :: (newsLoop now rest (seen ++ [k])).2) =
            k :: batchKeys (newsLoop now rest (seen ++ [k])).2 := by
          simp [batchKeys, rowKey, mkNewsRow, hk]
        refine ⟨?_, ?_, ?_, ?_⟩
        · rw [hbk, ih1]
          simp
        · rw [hbk]
          intro x hx
          rcases List.mem_cons.mp hx with hx | hx
          · subst hx; exact hmem
          · have hni := ih2 x hx
            simp only [List.mem_append, List.mem_singleton] at hni
            intro hcon
            exact hni (Or.inl hcon)
        · rw [hbk]
          refine List.nodup_cons.mpr ⟨?_, ih3⟩
          intro hcon
          have hni := ih2 k hcon
          simp at hni
        · intro r hr
          rcases List.mem_cons.mp hr with hr | hr
          · subst hr; simp [rowKey, mkNewsRow, hk]
          · exact ih4 r hr

/-- A news cycle whose fetch raised leaves the state untouched and attempts
no append (the whole body is inside the `try`). -/
theorem news_fai_err (st : NewsState) (env : NewsEnv)
    (hf : env.fetchResult = .error ()) :
    NewsPoller.fetch_and_ingest st env = (st, none) := by
  unfold NewsPoller.fetch_and_ingest
  rw [hf]

/-- A news cycle with a successful fetch: the batch handed to `append_rows`
(empty when no append is attempted) is the loop's delivered rows, and the
new seen set is the trimmed post-loop seen set — whether or not the append
succeeds. -/
theorem news_fai_ok (st : NewsState) (env : NewsEnv) (arts : List Article)
    (hf : env.fetchResult = .ok arts) :
    cycleRows st env = (newsLoop env.now arts st.seen_ids).2 ∧
    (NewsPoller.fetch_and_ingest st env).1.seen_ids =
      trimSeen env.enumOrder (newsLoop env.now arts st.seen_ids).1 := by
  unfold cycleRows NewsPoller.fetch_and_ingest
  rw [hf]
  by_cases he : ((newsLoop env.now arts st.seen_ids).2).isEmpty
  · simp only [he, if_true]
    exact ⟨(List.isEmpty_iff.mp he).symm, trivial⟩
  · by_cases ha : env.appendOk <;> simp [he, ha]

/-- When the post-loop seen set has at most 5000 entries, the trim of lines
278-280 does not fire. -/
theorem trimSeen_noop (enum : List String → List String) (seen : List String)
    (h : seen.length ≤ 5000) : trimSeen enum seen = seen := by
  unfold trimSeen
  rw [if_neg (by omega)]

/-- Run-level dedup invariant: over any run in which the trim never fires,
the final seen set is the initial one extended by all delivered keys in
order, no delivered key was initially seen, and the concatenation of all
delivered batches' keys has no duplicate. -/
theorem newsRun_spec :
    ∀ (envs : List NewsEnv) (st : NewsState),
    noTrimRun st envs = true →
    (newsRun st envs).1.seen_ids =
      st.seen_ids ++ (((newsRun st envs).2).map batchKeys).flatten ∧
    (∀ k ∈ (((newsRun st envs).2).map batchKeys).flatten, k ∉ st.seen_ids) ∧
    (((newsRun st envs).2).map batchKeys).flatten.Nodup := by
  intro envs
  induction envs with
  | nil => intro st _; simp [newsRun]
  | cons e es ih =>
    intro st h
    have h' : (noTrimCycle st e &&
        noTrimRun (NewsPoller.fetch_and_ingest st e).1 es) = true := h
    obtain ⟨h1, h2⟩ : noTrimCycle st e = true ∧
        noTrimRun (NewsPoller.fetch_and_ingest st e).1 es = true := by
      simpa using h'
    have hunf : newsRun st (e :: es) =
        ((newsRun (NewsPoller.fetch_and_ingest st e).1 es).1,
          cycleRows st e :: (newsRun (NewsPoller.fetch_and_ingest st e).1 es).2) := rfl
    cases hfr : e.fetchResult with
    | error u =>
      cases u
      have hfe := news_fai_err st e hfr
      have hcr : cycleRows st e = [] := by
        unfold cycleRows
        rw [hfe]
      rw [hunf, hcr, hfe]
      have h2' : noTrimRun (st, (none : Option (AppendCall NewsRow))).1 es = true := by
        rw [← hfe]; exact h2
      obtain ⟨i1, i2, i3⟩ := ih st h2'
      refine ⟨?_, ?_, ?_⟩
      · simpa [batchKeys] using i1
      · simpa [batchKeys] using i2
      · simpa [batchKeys] using i3
    | ok arts =>
      obtain ⟨hcr, hsn⟩ := news_fai_ok st e arts hfr
      have hlen : (newsLoop e.now arts st.seen_ids).1.length ≤ 5000 := by
        unfold noTrimCycle at h1
        rw [hfr] at h1
        simpa using h1
      have hsn' : (NewsPoller.fetch_and_ingest st e).1.seen_ids =
          (newsLoop e.now arts st.seen_ids).1 := by
        rw [hsn, trimSeen_noop _ _ hlen]
      obtain ⟨l1, l2, l3, _⟩ := newsLoop_spec e.now arts st.seen_ids
      obtain ⟨i1, i2, i3⟩ := ih (NewsPoller.fetch_and_ingest st e).1 h2
      rw [hunf, hcr]
      have hseen1 : (NewsPoller.fetch_and_ingest st e).1.seen_ids =
          st.seen_ids ++ batchKeys (newsLoop e.now arts st.seen_ids).2 := by
        rw [hsn', l1]
      refine ⟨?_, ?_, ?_⟩
      · simp only [List.map_cons, List.flatten_cons]
        rw [i1, hseen1, List.append_assoc]
      · simp only [List.map_cons, List.flatten_cons]
        intro k hk
        rcases List.mem_append.mp hk with hk | hk
        · exact l2 k hk
        · have hni := i2 k hk
          rw [hseen1] at hni
          simp only [List.mem_append] at hni
          intro hcon
          exact hni (Or.inl hcon)
      · simp only [List.map_cons, List.flatten_cons]
        refine List.nodup_append.mpr ⟨l3, i3, ?_⟩
        intro x hx hx'
        have hni := i2 x hx'
        rw [hseen1] at hni
        exact hni (List.mem_append.mpr (Or.inr hx))

/-- C3: starting from the fresh news poller (empty seen set), over any run
in which the SeenSet trim never fires, the seen set is at all times exactly
the list of delivered article keys, and the concatenation of all delivered
batches' keys has no duplicates — no article identifier is ever included in
an appended batch twice, neither within one cycle nor across cycles. -/
theorem C3_no_duplicate_delivery (envs : List NewsEnv)
    (h : noTrimRun newsStart envs = true) :
    (newsRun newsStart envs).1.seen_ids =
      (((newsRun newsStart envs).2).map batchKeys).flatten ∧
    (((newsRun newsStart envs).2).map batchKeys).flatten.Nodup := by
  obtain ⟨h1, _, h3⟩ := newsRun_spec envs newsStart h
  refine ⟨?_, h3⟩
  simpa [newsStart] using h1

/-- Witness for C3: the spec's scenario — cycle 1 delivers `[a1, a2]`,
cycle 2's response is `[a1, a2, a1, a3]`; the concatenated delivered keys
`["a1", "a2", "a3"]` are duplicate-free. -/
theorem C3_no_duplicate_delivery_witness :
    (newsRun newsStart [exC3Env1, exC3Env2]).1.seen_ids =
      (((newsRun newsStart [exC3Env1, exC3Env2]).2).map batchKeys).flatten ∧
    (((newsRun newsStart [exC3Env1, exC3Env2]).2).map batchKeys).flatten.Nodup :=
  C3_no_duplicate_delivery [exC3Env1, exC3Env2] (by decide)

/-- Keys of the i-th recorded batch, expressed through the mapped list. -/
theorem batchKeys_getD (bs : List (List NewsRow)) (i : Nat) :
    batchKeys (bs.getD i []) = (bs.map batchKeys).getD i [] := by
  induction bs generalizing i with
  | nil => simp [batchKeys]
  | cons b bs ih =>
    cases i with
    | zero => simp
    | succ i => simpa using ih i

/-- In a duplicate-free flattened list of lists, an element of the i-th
sublist does not occur in the j-th sublist for j ≠ i. -/
theorem flatten_nodup_getD_disjoint {α : Type} (L : List (List α))
    (h : L.flatten.Nodup) (i j : Nat) (hij : i ≠ j) (x : α)
    (hx : x ∈ L.getD i []) : x ∉ L.getD j [] := by
  by_cases hi : i < L.length
  · by_cases hj : j < L.length
    · obtain ⟨_, hpw⟩ := List.nodup_flatten.mp h
      have hget := List.pairwise_iff_getElem.mp hpw
      rw [List.getD_eq_getElem _ _ hi] at hx
      rw [List.getD_eq_getElem _ _ hj]
      rcases Nat.lt_or_ge i j with hlt | hge
      · exact fun hx' => (hget i j hi hj hlt) hx hx'
      · have hlt : j < i := by omega
        exact fun hx' => (hget j i hj hi hlt) hx' hx
    · rw [List.getD_eq_default _ _ (by omega)]
      simp
  · rw [List.getD_eq_default _ _ (by omega)] at hx
    simp at hx

/-- C9: in a trim-free run of the news poller, if an article key is part of
the batch of cycle i and that cycle's append fails, the key is still in the
seen set at the end of the run (it was inserted before the append and never
removed), and no later cycle's batch contains it again: the article is
permanently suppressed although its content never reached the sink. -/
theorem C9_failed_append_suppresses (envs : List NewsEnv) (i : Nat) (k : String)
    (hnt : noTrimRun newsStart envs = true)
    (hfail : (envs.getD i default).appendOk = false)
    (hk : k ∈ batchKeys (((newsRun newsStart envs).2).getD i [])) :
    k ∈ (newsRun newsStart envs).1.seen_ids ∧
    ∀ j, i < j → k ∉ batchKeys (((newsRun newsStart envs).2).getD j []) := by
  obtain ⟨hseen, _, hnd⟩ := newsRun_spec envs newsStart hnt
  rw [batchKeys_getD] at hk
  constructor
  · rw [hseen]
    have hmem : k ∈ (((newsRun newsStart envs).2).map batchKeys).flatten := by
      by_cases hi : i < (((newsRun newsStart envs).2).map batchKeys).length
      · rw [List.getD_eq_getElem _ _ hi] at hk
        exact List.mem_flatten.mpr ⟨_, List.getElem_mem hi, hk⟩
      · rw [List.getD_eq_default _ _ (by omega)] at hk
        simp at hk
    exact List.mem_append.mpr (Or.inr hmem)
  · intro j hij
    rw [batchKeys_getD]
    exact flatten_nodup_getD_disjoint _ hnd i j (by omega) k hk

/-- Witness for C9: cycle 0 delivers `a1` but its append fails; `a1` is in
the final seen set and is not in cycle 1's batch even though cycle 1's
response contains it. -/
theorem C9_failed_append_suppresses_witness :
    "a1" ∈ (newsRun newsStart [exC9Env1, exC9Env2]).1.seen_ids ∧
    "a1" ∉ batchKeys (((newsRun newsStart [exC9Env1, exC9Env2]).2).getD 1 []) := by
  have h := C9_failed_append_suppresses [exC9Env1, exC9Env2] 0 "a1"
    (by decide) (by decide) (by decide)
  exact ⟨h.1, h.2 1 (by decide)⟩

/-- The per-article loop ignores every occurrence of an article whose key is
falsy: the loop behaves exactly as if those occurrences were not in the
response at all. -/
theorem newsLoop_skip_falsy (now : String) (a : Article)
    (ha : articleKey a = none) :
    ∀ (arts : List Article) (seen : List String),
    newsLoop now arts seen =
      newsLoop now (arts.filter fun x => decide (x ≠ a)) seen := by
  intro arts
  induction arts with
  | nil => intro seen; rfl
  | cons b rest ih =>
    intro seen
    by_cases hb : b = a
    · subst hb
      have hF : ((b :: rest).filter fun x => decide (x ≠ b)) =
          rest.filter fun x => decide (x ≠ b) := by
        simp
      rw [hF]
      have hL : newsLoop now (b :: rest) seen = newsLoop now rest seen := by
        rw [newsLoop.eq_2, ha]
      rw [hL]
      exact ih seen
    · have hF : ((b :: rest).filter fun x => decide (x ≠ a)) =
          b :: rest.filter fun x => decide (x ≠ a) := by
        simp [hb]
      rw [hF, newsLoop.eq_2, newsLoop.eq_2]
      cases hk : articleKey b with
      | none => exact ih seen
      | some k =>
        by_cases hm : k ∈ seen
        · simp only [if_pos hm]
          exact ih seen
        · simp only [if_neg hm]
          rw [ih (seen ++ [k])]

/-- C10: an article in the response whose id field is absent or falsy (the
empty string) is silently skipped, whatever its other content: the cycle's
loop behaves as if the article were not in the response (in particular
nothing is added to the seen set for it), and it never appears in the
delivered batch. -/
theorem C10_falsy_id_skipped (now : String) (arts : List Article)
    (seen : List String) (a : Article) (ha : articleKey a = none) :
    newsLoop now arts seen =
      newsLoop now (arts.filter fun x => decide (x ≠ a)) seen ∧
    ∀ r ∈ (newsLoop now arts seen).2, r.record_content ≠ a := by
  refine ⟨newsLoop_skip_falsy now a ha arts seen, ?_⟩
  intro r hr heq
  have hs := (newsLoop_spec now arts seen).2.2.2 r hr
  rw [rowKey, heq, ha] at hs
  simp at hs

/-- Witness for C10: an article with an empty-string id among the response
is skipped while the truthy-id article is delivered. -/
theorem C10_falsy_id_skipped_witness :
    newsLoop "N" [exArtEmptyId, exArtX] [] =
      newsLoop "N" ([exArtEmptyId, exArtX].filter fun x => decide (x ≠ exArtEmptyId)) [] :=
  (C10_falsy_id_skipped "N" [exArtEmptyId, exArtX] [] exArtEmptyId (by decide)).1

/-- C5, amended. Whenever a successful news cycle's post-loop seen set
exceeds 5000 entries, the trim leaves exactly 2500 entries (for any
enumeration order of the set — the hypothesis only requires the enumeration
to preserve the element count). Which 2500 entries survive depends on the
unspecified CPython set iteration order, so the most-recently-seen ids may
be evicted and their articles re-delivered (see the counterexample). -/
theorem C5_trim_reduces_to_2500 (st : NewsState) (env : NewsEnv)
    (arts : List Article) (hf : env.fetchResult = .ok arts)
    (hlen : (env.enumOrder (newsLoop env.now arts st.seen_ids).1).length =
      (newsLoop env.now arts st.seen_ids).1.length)
    (hbig : (newsLoop env.now arts st.seen_ids).1.length > 5000) :
    (NewsPoller.fetch_and_ingest st env).1.seen_ids.length = 2500 := by
  have hseen := (news_fai_ok st env arts hf).2
  rw [hseen]
  unfold trimSeen
  rw [if_pos hbig, List.length_drop, hlen]
  omega

/-- Length of the generated id list. -/
theorem mkIds_length (n : Nat) : (mkIds n).length = n := by
  induction n with
  | zero => rfl
  | succ n ih => simp [mkIds, ih]

/-- None of the generated ids is the fresh one. -/
theorem fresh_not_mem_mkIds (n : Nat) : "fresh" ∉ mkIds n := by
  induction n with
  | zero => simp [mkIds]
  | succ n ih =>
    simp only [mkIds, List.mem_cons]
    rintro (h | h)
    · have hd := congrArg String.data h
      rw [String.data_append] at hd
      simp [String.data] at hd
    · exact ih h

/-- None of the 5000 pre-existing ids is the fresh one. -/
theorem exSeen5000_not_fresh : "fresh" ∉ exSeen5000 :=
  fresh_not_mem_mkIds 5000

/-- Size of the pre-existing seen set of the trim scenario. -/
theorem exSeen5000_length : exSeen5000.length = 5000 :=
  mkIds_length 5000

/-- The per-article loop on a single not-yet-seen truthy article: it is
recorded and delivered. -/
theorem newsLoop_single_new (now : String) (a : Article) (k : String)
    (seen : List String) (hk : articleKey a = some k) (hmem : k ∉ seen) :
    newsLoop now [a] seen = (seen ++ [k], [mkNewsRow now a]) := by
  rw [newsLoop.eq_2]
  simp only [hk, if_neg hmem, newsLoop.eq_1]

/-- Witness for C5: a state with 5001 seen ids and an empty response; the
cycle trims the seen set to exactly 2500 entries. -/
theorem C5_trim_reduces_to_2500_witness :
    (NewsPoller.fetch_and_ingest exC5WitState exC5WitEnv).1.seen_ids.length = 2500 := by
  refine C5_trim_reduces_to_2500 exC5WitState exC5WitEnv [] rfl ?_ ?_
  · rw [show exC5WitEnv.enumOrder = id from rfl, id_eq]
  · rw [newsLoop.eq_1]
    show exSeen5001.length > 5000
    have h : exSeen5001.length = 5001 := mkIds_length 5001
    omega

/-- C5 counterexample: a seen set of 5000 ids receives one fresh article.
The trim fires (5001 > 5000) and does reduce the set to 2500 entries, but
with the set enumerating in reverse insertion order — a legitimate CPython
behaviour — the most-recently-seen id "fresh" is evicted, and the very next
cycle re-delivers the same article. -/
theorem C5_counterexample :
    batchKeys (cycleRows exC5State exC5Env1) = ["fresh"] ∧
    (NewsPoller.fetch_and_ingest exC5State exC5Env1).1.seen_ids.length = 2500 ∧
    (NewsPoller.fetch_and_ingest exC5State exC5Env1).1.seen_ids.contains "fresh" = false ∧
    batchKeys
      (cycleRows (NewsPoller.fetch_and_ingest exC5State exC5Env1).1 exC5Env2) =
      ["fresh"] := by
  have hloop1 : newsLoop exC5Env1.now [exFreshArticle] exC5State.seen_ids =
      (exSeen5000 ++ ["fresh"], [mkNewsRow exC5Env1.now exFreshArticle]) :=
    newsLoop_single_new _ _ _ _ rfl exSeen5000_not_fresh
  have hloop1a : (newsLoop exC5Env1.now [exFreshArticle] exC5State.seen_ids).1 =
      exSeen5000 ++ ["fresh"] := by rw [hloop1]
  have hloop1b : (newsLoop exC5Env1.now [exFreshArticle] exC5State.seen_ids).2 =
      [mkNewsRow exC5Env1.now exFreshArticle] := by rw [hloop1]
  obtain ⟨hcr1, hsn1⟩ := news_fai_ok exC5State exC5Env1 [exFreshArticle] rfl
  have hl : (exSeen5000 ++ ["fresh"]).length = 5001 := by
    rw [List.length_append, exSeen5000_length]
    rfl
  have hsn1' : (NewsPoller.fetch_and_ingest exC5State exC5Env1).1.seen_ids =
      (List.reverse exSeen5000).drop 2500 := by
    rw [hsn1]
    unfold trimSeen
    rw [hloop1a]
    rw [if_pos (by rw [hl]; omega)]
    have he : exC5Env1.enumOrder = List.reverse := rfl
    rw [he]
    simp only [List.length_reverse, hl]
    have hrev : List.reverse (exSeen5000 ++ ["fresh"]) =
        "fresh" :: List.reverse exSeen5000 := by
      rw [List.reverse_append]
      simp
    rw [hrev]
    have hn : (5001 : Nat) - 2500 = 2500 + 1 := by omega
    rw [hn, List.drop_succ_cons]
  have hfresh1 :
      "fresh" ∉ (NewsPoller.fetch_and_ingest exC5State exC5Env1).1.seen_ids := by
    rw [hsn1']
    intro hmem
    exact exSeen5000_not_fresh
      (List.mem_reverse.mp (List.drop_subset 2500 _ hmem))
  refine ⟨?_, ?_, ?_, ?_⟩
  · rw [hcr1, hloop1b]
    rfl
  · rw [hsn1', List.length_drop, List.length_reverse, exSeen5000_length]
  · simpa using hfresh1
  · obtain ⟨hcr2, _⟩ := news_fai_ok
      (NewsPoller.fetch_and_ingest exC5State exC5Env1).1 exC5Env2 [exFreshArticle] rfl
    have hloop2 : (newsLoop exC5Env2.now [exFreshArticle]
        (NewsPoller.fetch_and_ingest exC5State exC5Env1).1.seen_ids).2 =
        [mkNewsRow exC5Env2.now exFreshArticle] := by
      rw [newsLoop_single_new exC5Env2.now exFreshArticle "fresh"
        (NewsPoller.fetch_and_ingest exC5State exC5Env1).1.seen_ids rfl hfresh1]
    rw [hcr2, hloop2]
    rfl

/-- The throttling wait of `api_get` never lets a request start earlier than
one full delay after the recorded completion of the previous one. -/
theorem apiCallStart_ge (last arrival : Nat) (h : last ≤ arrival) :
    last + API_CALL_DELAY ≤ apiCallStart last arrival := by
  unfold apiCallStart
  by_cases hc : arrival - last < API_CALL_DELAY
  · rw [if_pos hc]
    omega
  · rw [if_neg hc]
    omega

/-- C7: for any serialized sequence of calls through the rate-limited
client (the order in which callers hold `api_lock`, each acquiring it no
earlier than the previous holder's recorded completion), consecutive
requests start at least `API_CALL_DELAY` (12 seconds) apart, and no request
starts before the previous one completed — no two calls are in flight at
once. -/
theorem C7_rate_limit_gap (last0 : Nat) (calls : List ApiCall)
    (h : serializedFrom last0 calls = true) :
    List.Chain' (fun a b => a.1 + API_CALL_DELAY ≤ b.1 ∧ a.2 ≤ b.1)
      (apiRun last0 calls) := by
  induction calls generalizing last0 with
  | nil => simp [apiRun]
  | cons c cs ih =>
    have h' : (decide (last0 ≤ c.arrival) &&
        serializedFrom (apiCallStart last0 c.arrival + c.duration) cs) = true := h
    obtain ⟨h1, h2⟩ : last0 ≤ c.arrival ∧
        serializedFrom (apiCallStart last0 c.arrival + c.duration) cs = true := by
      simpa using h'
    cases cs with
    | nil => simp [apiRun]
    | cons c2 cs2 =>
      have h2' : (decide (apiCallStart last0 c.arrival + c.duration ≤ c2.arrival) &&
          serializedFrom (apiCallStart (apiCallStart last0 c.arrival + c.duration)
            c2.arrival + c2.duration) cs2) = true := h2
      obtain ⟨h21, _⟩ : apiCallStart last0 c.arrival + c.duration ≤ c2.arrival ∧
          serializedFrom (apiCallStart (apiCallStart last0 c.arrival + c.duration)
            c2.arrival + c2.duration) cs2 = true := by
        simpa using h2'
      have hrest := ih (apiCallStart last0 c.arrival + c.duration) h2
      have hgap := apiCallStart_ge (apiCallStart last0 c.arrival + c.duration)
        c2.arrival h21
      simp only [apiRun] at hrest ⊢
      rw [List.chain'_cons]
      exact ⟨⟨by omega, by omega⟩, hrest⟩

/-- Witness for C7: two serialized calls, the first taking 3 time units;
their start times 100 and 115 are 12 or more apart and do not overlap. -/
theorem C7_rate_limit_gap_witness :
    List.Chain' (fun a b => a.1 + API_CALL_DELAY ≤ b.1 ∧ a.2 ≤ b.1)
      (apiRun 0 [⟨100, 3⟩, ⟨105, 2⟩]) :=
  C7_rate_limit_gap 0 [⟨100, 3⟩, ⟨105, 2⟩] (by decide)

end SnowPulse
